import Mathlib

/-!
Verification of the health-monitor bot's core engine against its source
(`src/bot.ts`, `src/utils/helpers.ts`, `src/clients/supabaseClient.ts`).

The embedding is shallow: the per-account poll-cycle body (bot.ts lines
201-270), the health normalizer `getQuartzHealth` (helpers.ts 43-56), the
retry wrapper `retryWithBackoff` (helpers.ts 94-119), the auto-repay event
correlation (bot.ts 295-327) and the registration flags (bot.ts 98-105)
are translated into pure Lean functions.  JavaScript numbers carrying raw
health are modelled as rationals; normalized health values are integers;
failures are `Except` values; the outcome of each external call (RPC batch
fetch, Telegram delivery, Supabase update) is an input to the embedded
function, mirroring the source's `try`/`catch` placement.
-/

/-- Alert tiers of the bot: the first (warning) message and the second
(critical) message sent by the poll cycle in bot.ts lines 225-249. -/
inductive Tier
  | firstTier
  | secondTier
deriving DecidableEq, Repr

/-- One monitored account record, from
`src/interfaces/monitoredAccount.interface.ts`.  `chatId` is a Telegram
chat id (a JS number, modelled as an integer); `lastHealth` is the last
observed normalized health. -/
structure MonitoredAccount where
  address : String
  chatId : ℤ
  lastHealth : ℤ
  notifyAtFirstThreshold : Bool
  notifyAtSecondThreshold : Bool
deriving DecidableEq, Repr

/-- The four threshold constants imported by bot.ts from
`config/constants.ts`.  That file is not part of the sources, so the
values are carried as parameters; `specThresholds` below fixes the values
the spec names. -/
structure Thresholds where
  first : ℤ
  second : ℤ
  firstBuffer : ℤ
  secondBuffer : ℤ
deriving DecidableEq, Repr

/-- Modelled from the spec: `config/constants.ts` is not under `src/`.
`FIRST_THRESHOLD = 25` and `SECOND_THRESHOLD = 10` follow the user-facing
message text in bot.ts lines 110-111 and the spec's testable properties;
`FIRST_THRESHOLD_WITH_BUFFER = 30` is given by the spec; the spec
constrains `SECOND_THRESHOLD_WITH_BUFFER` only to strictly exceed the raw
second threshold, and 20 is chosen here.  Theorems quantify over the
buffer values wherever the claim does not pin them. -/
def specThresholds : Thresholds := ⟨25, 10, 30, 20⟩

/-- The notification decision of one poll-cycle body, bot.ts lines
225-249: the `if`/`else if` chain fires the second (critical) tier first,
else the first tier, each guarded by its arm flag and by the previous
health being above and the current health at or below the raw
threshold. -/
def fireDecision (th : Thresholds) (acc : MonitoredAccount) (currentHealth : ℤ) : Option Tier :=
  if acc.notifyAtSecondThreshold ∧ acc.lastHealth > th.second ∧ currentHealth ≤ th.second then
    some Tier.secondTier
  else if acc.notifyAtFirstThreshold ∧ acc.lastHealth > th.first ∧ currentHealth ≤ th.first then
    some Tier.firstTier
  else
    none

/-- One per-account cycle evaluation with delivery succeeding, bot.ts
lines 220-266: skip when the health is unchanged (line 220); otherwise
decide the notification, clear the fired tier's arm flag (lines 226,
238), re-arm any flag whose buffered re-arm point the current health
reaches (lines 255-256), and build the updated record stored at lines
259-266.  Returns the stored record and the list of sends performed. -/
def stepAccount (th : Thresholds) (acc : MonitoredAccount) (currentHealth : ℤ) :
    MonitoredAccount × List Tier :=
  if currentHealth = acc.lastHealth then (acc, [])
  else
    let fire := fireDecision th acc currentHealth
    let f1 := if fire = some Tier.firstTier then false else acc.notifyAtFirstThreshold
    let f2 := if fire = some Tier.secondTier then false else acc.notifyAtSecondThreshold
    let f1r := if currentHealth ≥ th.firstBuffer then true else f1
    let f2r := if currentHealth ≥ th.secondBuffer then true else f2
    (⟨acc.address, acc.chatId, currentHealth, f1r, f2r⟩, fire.toList)

/-- Iterated cycle evaluation over a sequence of observed healths,
collecting all sends, as successive iterations of the polling loop
perform on one account. -/
def runHealths (th : Thresholds) (acc : MonitoredAccount) : List ℤ → MonitoredAccount × List Tier
  | [] => (acc, [])
  | h :: rest =>
    let r := stepAccount th acc h
    let r' := runHealths th r.1 rest
    (r'.1, r.2 ++ r'.2)

/-- `getQuartzHealth` from helpers.ts lines 43-56, over rationals.
`buffer` is the constant `QUARTZ_HEALTH_BUFFER_PERCENTAGE` (imported from
the absent `config/constants.ts` and therefore a parameter here):
non-positive raw health is 0, raw health of 100 or more is 100, and
otherwise the buffered value is clamped to `[0, 100]` and floored. -/
def getQuartzHealth (buffer : ℚ) (driftHealth : ℚ) : ℤ :=
  if driftHealth ≤ 0 then 0
  else if driftHealth ≥ 100 then 100
  else ⌊min (100 : ℚ) (max 0 ((driftHealth - buffer) / (1 - buffer / 100)))⌋

/-- Character-list prefix test, used to model JavaScript's
`String.prototype.includes`. -/
def startsWithChars : List Char → List Char → Bool
  | _, [] => true
  | [], _ :: _ => false
  | a :: as, b :: bs => a = b && startsWithChars as bs

/-- Does `s` contain `sub` as a contiguous run?  Models
`error.message.includes(errorContains)` in helpers.ts line 108. -/
def containsChars (sub : List Char) : List Char → Bool
  | [] => startsWithChars [] sub
  | c :: rest => startsWithChars (c :: rest) sub || containsChars sub rest

/-- String containment: `strContains s sub` is true when `sub` occurs
contiguously inside `s`. -/
def strContains (s sub : String) : Bool :=
  containsChars sub.toList s.toList

/-- Observable outcome of a `retryWithBackoff` call: the value returned
or error thrown (`Except.error none` models throwing the uninitialized
`lastError`, i.e. `undefined`), the sleep durations awaited in order, and
how many times the wrapped operation was invoked. -/
structure RetryResult (T : Type) where
  result : Except (Option String) T
  delays : List ℕ
  calls : ℕ
deriving Repr

/-- The loop of `retryWithBackoff` (helpers.ts lines 103-117): `i` is the
current attempt index, the second argument the number of remaining
iterations, the third the current `lastError`.  `fn j` is the outcome of
the `j`-th invocation of the wrapped operation.  A thrown error whose
message contains `errorContains` triggers a sleep of
`initialDelay * 2 ^ i` and another iteration; any other error is
re-thrown at once. -/
def retryGo {T : Type} (fn : ℕ → Except String T) (errorContains : String)
    (initialDelay : ℕ) : ℕ → ℕ → Option String → RetryResult T
  | _, 0, last => ⟨Except.error last, [], 0⟩
  | i, rem + 1, _ =>
    match fn i with
    | Except.ok v => ⟨Except.ok v, [], 1⟩
    | Except.error e =>
      if strContains e errorContains then
        let r := retryGo fn errorContains initialDelay (i + 1) rem (some e)
        ⟨r.result, initialDelay * 2 ^ i :: r.delays, r.calls + 1⟩
      else
        ⟨Except.error (some e), [], 1⟩

/-- `retryWithBackoff` from helpers.ts lines 94-119.  `retries` is a JS
number and may be non-positive, in which case the `for` loop body never
runs and the uninitialized `lastError` is thrown (`Except.error none`). -/
def retryWithBackoff {T : Type} (fn : ℕ → Except String T) (errorContains : String)
    (retries : ℤ) (initialDelay : ℕ) : RetryResult T :=
  retryGo fn errorContains initialDelay 0 retries.toNat none

/-- Per-account inputs of one poll-cycle iteration: whether the batch
fetch returned a state for this account (bot.ts line 205), the outcome of
constructing the Drift user and reading its raw health (lines 211-218),
the final outcome of `retryHTTPWithBackoff` around the Telegram send
(lines 227-247), and the outcome of the un-awaited
`supabase.updateAccount` call (line 266). -/
structure CycleInput where
  fetched : Bool
  health : Except String ℚ
  delivery : Except String Unit
  updateResult : Except String Unit
deriving Repr

/-- Observable outcome of processing one account in a poll cycle:
the sends attempted, whether the registry/storage update of lines 259-266
executed, the in-memory record after the iteration (the old record when
the account was skipped), the error messages caught and logged by the
`catch` blocks at lines 215-218, 250-253 and 267-269, and failures of the
un-awaited persistence call, which escape every `catch` block as
unhandled promise rejections. -/
structure ProcessOutcome where
  sends : List Tier
  updated : Bool
  record : MonitoredAccount
  logged : List String
  detached : List String
deriving Repr

/-- The body of the per-account `for` loop, bot.ts lines 201-270.  A
missing fetch result skips the account (lines 205-208); a health-read
error is caught, logged and skips the account (lines 215-218); an
unchanged health skips the account (line 220); a notification whose
delivery fails after retries is caught and logged and the `continue` at
line 252 skips the update, leaving the record unchanged; otherwise the
updated record is stored.  `supabase.updateAccount` is invoked without
`await`, so its failure lands in `detached` rather than in `logged`. -/
def processAccount (th : Thresholds) (buffer : ℚ) (input : CycleInput)
    (acc : MonitoredAccount) : ProcessOutcome :=
  if input.fetched = false then ⟨[], false, acc, [], []⟩
  else
    match input.health with
    | Except.error e => ⟨[], false, acc, [e], []⟩
    | Except.ok raw =>
      let currentHealth := getQuartzHealth buffer raw
      if currentHealth = acc.lastHealth then ⟨[], false, acc, [], []⟩
      else
        match fireDecision th acc currentHealth, input.delivery with
        | some t, Except.error e => ⟨[t], false, acc, [e], []⟩
        | _, _ =>
          let r := stepAccount th acc currentHealth
          let det := match input.updateResult with
            | Except.error e => [e]
            | Except.ok _ => []
          ⟨r.2, true, r.1, [], det⟩

/-- The whole per-account loop of one cycle over the snapshot taken at
bot.ts line 185: each account is processed by `processAccount`; because
every synchronous throw site of the loop body sits inside a `catch`, the
loop always reaches the remaining accounts. -/
def runCycle (th : Thresholds) (buffer : ℚ) :
    List (CycleInput × MonitoredAccount) → List ProcessOutcome
  | [] => []
  | (i, a) :: rest => processAccount th buffer i a :: runCycle th buffer rest

/-- Observable outcome of one iteration of the `while (true)` polling
loop, bot.ts lines 184-273: the per-account outcomes, and whether the
`setTimeout(..., LOOP_DELAY)` sleep at line 272 was awaited before the
next iteration. -/
structure PollIteration where
  processed : List ProcessOutcome
  sleptLoopDelay : Bool
deriving Repr

/-- One iteration of the polling loop.  When the batch fetch fails even
after `retryRPCWithBackoff`, the `catch` at bot.ts lines 196-199 logs and
executes `continue`, which skips the rest of the body including the
`LOOP_DELAY` sleep at line 272; otherwise the accounts are processed and
the sleep runs. -/
def pollCycle (th : Thresholds) (buffer : ℚ)
    (fetchResult : Except String (List (CycleInput × MonitoredAccount))) : PollIteration :=
  match fetchResult with
  | Except.error _ => ⟨[], false⟩
  | Except.ok entries => ⟨runCycle th buffer entries, true⟩

/-- Log entries produced by the auto-repay listener's decoded-instruction
handling, bot.ts lines 307-324. -/
inductive RepayLog
  | manualRepay (owner : String)
  | autoRepayNotified (owner : String)
  | autoRepayUnmonitored (owner : String)
deriving DecidableEq, Repr

/-- The decoded-instruction handling of `setupAutoRepayListener`, bot.ts
lines 307-324, given the extracted caller and owner addresses and the
current registry.  Returns the chat ids notified and the log entries
produced: a monitored owner with `caller == owner` is logged as a manual
repay and not notified; a monitored owner with a different caller is
notified once; an unmonitored owner is never notified and is logged only
when the caller differs. -/
def handleAutoRepay (registry : String → Option MonitoredAccount)
    (caller owner : String) : List ℤ × List RepayLog :=
  match registry owner with
  | some acc =>
    if caller = owner then ([], [RepayLog.manualRepay owner])
    else ([acc.chatId], [RepayLog.autoRepayNotified owner])
  | none =>
    if caller ≠ owner then ([], [RepayLog.autoRepayUnmonitored owner])
    else ([], [])

/-- The record registered by `startMonitoring` for a previously
unmonitored address, bot.ts lines 98-105: the arm flags are initialized
by comparing the current normalized health against the buffered re-arm
points `FIRST_THRESHOLD_WITH_BUFFER` and `SECOND_THRESHOLD_WITH_BUFFER`
(the same comparisons the Supabase `addAccount` insert performs). -/
def initialMonitoredAccount (th : Thresholds) (address : String) (chatId : ℤ)
    (quartzHealth : ℤ) : MonitoredAccount :=
  ⟨address, chatId, quartzHealth,
    decide (quartzHealth ≥ th.firstBuffer),
    decide (quartzHealth ≥ th.secondBuffer)⟩

/-- Helper for the hysteresis run: observing health 40 from any stored
health with the first tier armed stores health 40, keeps the first tier
armed and sends nothing. -/
lemma step_to40 (sb h0 : ℤ) (s : Bool) :
    ∃ s1, stepAccount ⟨25, 10, 30, sb⟩ ⟨"addr", 7, h0, true, s⟩ 40 =
      (⟨"addr", 7, 40, true, s1⟩, []) := by
  by_cases h : (40 : ℤ) = h0
  · exact ⟨s, by rw [← h]; simp [stepAccount]⟩
  · refine ⟨if (40 : ℤ) ≥ sb then true else s, ?_⟩
    norm_num [stepAccount, fireDecision, h]
    simp

/-- Helper for the hysteresis run: a drop to 20 from a stored health
above 25 with the first tier armed fires the first tier exactly once and
disarms it. -/
lemma step_drop_to20 (sb prev : ℤ) (s : Bool) (hprev : prev > 25) :
    ∃ s2, stepAccount ⟨25, 10, 30, sb⟩ ⟨"addr", 7, prev, true, s⟩ 20 =
      (⟨"addr", 7, 20, false, s2⟩, [Tier.firstTier]) := by
  refine ⟨if (20 : ℤ) ≥ sb then true else s, ?_⟩
  have hne : (20 : ℤ) ≠ prev := by omega
  norm_num [stepAccount, fireDecision, hne, hprev]
  simp

/-- Helper for the hysteresis run: an unchanged health of 20 is skipped
outright. -/
lemma step_stay20 (sb : ℤ) (s : Bool) :
    stepAccount ⟨25, 10, 30, sb⟩ ⟨"addr", 7, 20, false, s⟩ 20 =
      (⟨"addr", 7, 20, false, s⟩, []) := by
  simp [stepAccount]

/-- Helper for the hysteresis run: recovering from 20 to 31 (at or above
the buffered re-arm point 30) re-arms the first tier and sends
nothing. -/
lemma step_recover31 (sb : ℤ) (s : Bool) :
    ∃ s3, stepAccount ⟨25, 10, 30, sb⟩ ⟨"addr", 7, 20, false, s⟩ 31 =
      (⟨"addr", 7, 31, true, s3⟩, []) := by
  refine ⟨if (31 : ℤ) ≥ sb then true else s, ?_⟩
  norm_num [stepAccount, fireDecision]
  simp

/-- C1: starting from `firstArmed = true` with `FIRST_THRESHOLD = 25` and
`FIRST_THRESHOLD_WITH_BUFFER = 30`, iterating the per-account cycle
evaluation over the health sequence 40 then 20 fires exactly one
FirstTier notification and sets `firstArmed` to false; subsequent cycles
with health staying at 20 fire nothing; a cycle reaching health 31 (at or
above the buffer) re-arms the first tier; a later drop from 31 to 20
fires FirstTier again.  The initial stored health, the initial second-tier
flag and the second-tier re-arm buffer are arbitrary. -/
theorem hysteresis_no_repeat_c1 (h0 : ℤ) (s : Bool) (sb : ℤ) :
    (runHealths ⟨25, 10, 30, sb⟩ ⟨"addr", 7, h0, true, s⟩ [40, 20]).2 = [Tier.firstTier] ∧
    (runHealths ⟨25, 10, 30, sb⟩ ⟨"addr", 7, h0, true, s⟩ [40, 20]).1.notifyAtFirstThreshold
      = false ∧
    (runHealths ⟨25, 10, 30, sb⟩ ⟨"addr", 7, h0, true, s⟩ [40, 20, 20, 20]).2
      = [Tier.firstTier] ∧
    (runHealths ⟨25, 10, 30, sb⟩ ⟨"addr", 7, h0, true, s⟩ [40, 20, 20, 20, 31]).2
      = [Tier.firstTier] ∧
    (runHealths ⟨25, 10, 30, sb⟩ ⟨"addr", 7, h0, true, s⟩
      [40, 20, 20, 20, 31]).1.notifyAtFirstThreshold = true ∧
    (runHealths ⟨25, 10, 30, sb⟩ ⟨"addr", 7, h0, true, s⟩ [40, 20, 20, 20, 31, 20]).2
      = [Tier.firstTier, Tier.firstTier] ∧
    (runHealths ⟨25, 10, 30, sb⟩ ⟨"addr", 7, h0, true, s⟩
      [40, 20, 20, 20, 31, 20]).1.notifyAtFirstThreshold = false := by
  obtain ⟨s1, e1⟩ := step_to40 sb h0 s
  obtain ⟨s2, e2⟩ := step_drop_to20 sb 40 s1 (by norm_num)
  have e3 := step_stay20 sb s2
  obtain ⟨s3, e4⟩ := step_recover31 sb s2
  obtain ⟨s4, e5⟩ := step_drop_to20 sb 31 s3 (by norm_num)
  simp [runHealths, e1, e2, e3, e4, e5]

/-- C2: a single per-account cycle evaluation performs at most one send,
for every thresholds, account state and current health; in particular a
single-cycle drop from health 40 to health 5 with both tiers armed fires
SecondTier only and never FirstTier. -/
theorem single_cycle_mutual_exclusivity_c2 :
    (∀ (th : Thresholds) (acc : MonitoredAccount) (currentHealth : ℤ),
      (stepAccount th acc currentHealth).2.length ≤ 1) ∧
    (∀ sb : ℤ,
      (stepAccount ⟨25, 10, 30, sb⟩ ⟨"addr", 7, 40, true, true⟩ 5).2 = [Tier.secondTier]) := by
  constructor
  · intro th acc currentHealth
    simp only [stepAccount]
    split
    · simp
    · cases fireDecision th acc currentHealth <;> simp
  · intro sb
    simp [stepAccount, fireDecision]

/-- The normalized health is always between 0 and 100, for every buffer
and raw input. -/
lemma getQuartzHealth_bounds (b raw : ℚ) :
    0 ≤ getQuartzHealth b raw ∧ getQuartzHealth b raw ≤ 100 := by
  unfold getQuartzHealth
  split
  · norm_num
  · split
    · norm_num
    · constructor
      · refine Int.le_floor.mpr ?_
        push_cast
        exact le_min (by norm_num) (le_max_left 0 _)
      · calc ⌊min (100 : ℚ) (max 0 ((raw - b) / (1 - b / 100)))⌋
            ≤ ⌊(100 : ℚ)⌋ := Int.floor_le_floor (min_le_left _ _)
          _ = 100 := by norm_num

/-- The normalized health is monotone in the raw input whenever the
buffer is below 100 (so that the denominator `1 - buffer/100` is
positive). -/
lemma getQuartzHealth_mono (b : ℚ) (hb1 : b < 100) (r1 r2 : ℚ) (h : r1 ≤ r2) :
    getQuartzHealth b r1 ≤ getQuartzHealth b r2 := by
  have hc : 0 < 1 - b / 100 := by
    have : b / 100 < 1 := (div_lt_one (by norm_num)).mpr hb1
    linarith
  by_cases h1 : r1 ≤ 0
  · have e1 : getQuartzHealth b r1 = 0 := by unfold getQuartzHealth; rw [if_pos h1]
    rw [e1]
    exact (getQuartzHealth_bounds b r2).1
  · by_cases h2 : r2 ≥ 100
    · have e2 : getQuartzHealth b r2 = 100 := by
        unfold getQuartzHealth
        rw [if_neg (by linarith), if_pos h2]
      rw [e2]
      exact (getQuartzHealth_bounds b r1).2
    · have h1' : ¬ r2 ≤ 0 := by linarith
      have h2' : ¬ r1 ≥ 100 := by
        intro hr
        exact h2 (by linarith)
      unfold getQuartzHealth
      rw [if_neg h1, if_neg h2', if_neg h1', if_neg h2]
      refine Int.floor_le_floor ?_
      refine min_le_min le_rfl (max_le_max le_rfl ?_)
      exact (div_le_div_iff_of_pos_right hc).mpr (by linarith)

/-- C5: `getQuartzHealth` returns 0 for non-positive raw health, 100 for
raw health at least 100, and otherwise the floor of the buffered value
clamped to `[0, 100]`; consequently it maps 0 to 0, 100 to 100 and the
buffer percentage itself to 0, its output always lies in `[0, 100]`, and
it is monotone non-decreasing in the raw input.  The buffer is any
configured margin with `0 ≤ buffer < 100`. -/
theorem getQuartzHealth_spec_c5 (b : ℚ) (hb0 : 0 ≤ b) (hb1 : b < 100) :
    (∀ raw : ℚ, raw ≤ 0 → getQuartzHealth b raw = 0) ∧
    (∀ raw : ℚ, raw ≥ 100 → getQuartzHealth b raw = 100) ∧
    (∀ raw : ℚ, 0 < raw → raw < 100 →
      getQuartzHealth b raw = ⌊min (100 : ℚ) (max 0 ((raw - b) / (1 - b / 100)))⌋) ∧
    getQuartzHealth b 0 = 0 ∧
    getQuartzHealth b 100 = 100 ∧
    getQuartzHealth b b = 0 ∧
    (∀ raw : ℚ, 0 ≤ getQuartzHealth b raw ∧ getQuartzHealth b raw ≤ 100) ∧
    (∀ r1 r2 : ℚ, r1 ≤ r2 → getQuartzHealth b r1 ≤ getQuartzHealth b r2) := by
  refine ⟨?_, ?_, ?_, ?_, ?_, ?_, fun raw => getQuartzHealth_bounds b raw,
    fun r1 r2 h => getQuartzHealth_mono b hb1 r1 r2 h⟩
  · intro raw hr
    unfold getQuartzHealth
    rw [if_pos hr]
  · intro raw hr
    unfold getQuartzHealth
    rw [if_neg (by linarith), if_pos hr]
  · intro raw hr0 hr100
    unfold getQuartzHealth
    rw [if_neg (by linarith), if_neg (by linarith)]
  · unfold getQuartzHealth
    norm_num
  · unfold getQuartzHealth
    norm_num
  · by_cases hb : b ≤ 0
    · unfold getQuartzHealth
      rw [if_pos hb]
    · unfold getQuartzHealth
      rw [if_neg hb, if_neg (by linarith)]
      rw [sub_self, zero_div]
      norm_num

/-- Witness for C5 at the concrete buffer 10: the hypotheses hold and the
concrete normalization facts follow by applying the theorem. -/
theorem getQuartzHealth_spec_c5_witness :
    (0 : ℚ) ≤ 10 ∧ (10 : ℚ) < 100 ∧
    getQuartzHealth 10 0 = 0 ∧
    getQuartzHealth 10 100 = 100 ∧
    getQuartzHealth 10 10 = 0 ∧
    (0 ≤ getQuartzHealth 10 55 ∧ getQuartzHealth 10 55 ≤ 100) ∧
    getQuartzHealth 10 20 ≤ getQuartzHealth 10 30 :=
  ⟨by norm_num, by norm_num,
    (getQuartzHealth_spec_c5 10 (by norm_num) (by norm_num)).2.2.2.1,
    (getQuartzHealth_spec_c5 10 (by norm_num) (by norm_num)).2.2.2.2.1,
    (getQuartzHealth_spec_c5 10 (by norm_num) (by norm_num)).2.2.2.2.2.1,
    (getQuartzHealth_spec_c5 10 (by norm_num) (by norm_num)).2.2.2.2.2.2.1 55,
    (getQuartzHealth_spec_c5 10 (by norm_num) (by norm_num)).2.2.2.2.2.2.2 20 30 (by norm_num)⟩

/-- One-step unfolding of the retry loop when the current invocation
throws a marker-matching error: the loop sleeps `initialDelay * 2 ^ i`
and continues with the next attempt. -/
lemma retryGo_err_cont {T : Type} (fn : ℕ → Except String T) (marker : String) (d : ℕ)
    (i rem : ℕ) (last : Option String) (e : String)
    (hfn : fn i = Except.error e) (hm : strContains e marker = true) :
    retryGo fn marker d i (rem + 1) last =
      ⟨(retryGo fn marker d (i + 1) rem (some e)).result,
        d * 2 ^ i :: (retryGo fn marker d (i + 1) rem (some e)).delays,
        (retryGo fn marker d (i + 1) rem (some e)).calls + 1⟩ := by
  simp [retryGo, hfn, hm]

/-- When every invocation throws a marker-matching error, the retry loop
runs all remaining iterations, sleeping `initialDelay * 2 ^ index` after
each failure, and ends holding the last error. -/
lemma retryGo_exhaust {T : Type} (fn : ℕ → Except String T) (marker : String) (d : ℕ)
    (es : ℕ → String) (hfn : ∀ j, fn j = Except.error (es j))
    (hm : ∀ j, strContains (es j) marker = true) :
    ∀ (m i : ℕ) (last : Option String),
      retryGo fn marker d i (m + 1) last =
        ⟨Except.error (some (es (i + m))), (List.range (m + 1)).map (fun k => d * 2 ^ (i + k)),
          m + 1⟩ := by
  intro m
  induction m with
  | zero =>
    intro i last
    simp [retryGo, hfn i, hm i, List.range_succ]
  | succ m ih =>
    intro i last
    have hfun : (fun k : ℕ => d * 2 ^ (i + 1 + k)) = (fun k : ℕ => d * 2 ^ (i + (k + 1))) := by
      funext k
      have hik : i + 1 + k = i + (k + 1) := by omega
      rw [hik]
    have hrange : (List.range (m + 1 + 1)).map (fun k => d * 2 ^ (i + k)) =
        d * 2 ^ i :: (List.range (m + 1)).map (fun k => d * 2 ^ (i + 1 + k)) := by
      rw [List.range_succ_eq_map, List.map_cons, List.map_map, hfun]
      simp [Function.comp_def]
    have hidx : i + 1 + m = i + (m + 1) := by omega
    rw [retryGo_err_cont fn marker d i (m + 1) last (es i) (hfn i) (hm i),
      ih (i + 1) (some (es i)), hrange, hidx]

/-- C4: (a) an operation that fails with a marker-matching error exactly
twice and then succeeds, run with `maxAttempts = 3`, succeeds after
exactly two retries, sleeping `initialDelay` then `2 * initialDelay`;
(b) a failure whose message does not contain the marker propagates at
once, with no sleep and a single invocation; (c) when all `n ≥ 1`
attempts fail with marker-matching errors, the last failure propagates
after `n` invocations with sleeps `initialDelay * 2 ^ 0, ...,
initialDelay * 2 ^ (n-1)`. -/
theorem retryWithBackoff_semantics_c4 :
    (∀ (T : Type) (fn : ℕ → Except String T) (marker : String) (d : ℕ) (v : T) (e0 e1 : String),
      fn 0 = Except.error e0 → strContains e0 marker = true →
      fn 1 = Except.error e1 → strContains e1 marker = true →
      fn 2 = Except.ok v →
      retryWithBackoff fn marker 3 d = ⟨Except.ok v, [d, 2 * d], 3⟩) ∧
    (∀ (T : Type) (fn : ℕ → Except String T) (marker : String) (ret : ℤ) (d : ℕ) (e : String),
      1 ≤ ret → fn 0 = Except.error e → strContains e marker = false →
      retryWithBackoff fn marker ret d = ⟨Except.error (some e), [], 1⟩) ∧
    (∀ (T : Type) (fn : ℕ → Except String T) (marker : String) (d : ℕ) (es : ℕ → String)
      (n : ℕ), 1 ≤ n →
      (∀ j, fn j = Except.error (es j)) → (∀ j, strContains (es j) marker = true) →
      retryWithBackoff fn marker (n : ℤ) d =
        ⟨Except.error (some (es (n - 1))), (List.range n).map (fun k => d * 2 ^ k), n⟩) := by
  refine ⟨?_, ?_, ?_⟩
  · intro T fn marker d v e0 e1 h0 hm0 h1 hm1 h2
    have h3 : (3 : ℤ).toNat = 3 := rfl
    rw [retryWithBackoff, h3]
    simp only [retryGo, h0, hm0, if_pos, h1, hm1, h2]
    norm_num [mul_comm]
  · intro T fn marker ret d e hret h0 hm
    obtain ⟨k, hk⟩ : ∃ k, ret.toNat = k + 1 := ⟨ret.toNat - 1, by omega⟩
    rw [retryWithBackoff, hk]
    simp [retryGo, h0, hm]
  · intro T fn marker d es n hn hfn hm
    obtain ⟨m, rfl⟩ : ∃ m, n = m + 1 := ⟨n - 1, by omega⟩
    have hnat : ((m + 1 : ℕ) : ℤ).toNat = m + 1 := by norm_num
    rw [retryWithBackoff, hnat, retryGo_exhaust fn marker d es hfn hm m 0 none]
    simp

/-- Witness for C4: concrete operations over marker "503" exercising all
three conjuncts of the theorem, with every hypothesis discharged by
evaluation. -/
theorem retryWithBackoff_semantics_c4_witness :
    retryWithBackoff
        (fun i => if i < 2 then Except.error "x 503 y" else Except.ok (42 : ℕ)) "503" 3 5 =
      ⟨Except.ok 42, [5, 2 * 5], 3⟩ ∧
    retryWithBackoff (fun _ => (Except.error "boom" : Except String ℕ)) "503" 3 5 =
      ⟨Except.error (some "boom"), [], 1⟩ ∧
    retryWithBackoff (fun _ => (Except.error "x 503 y" : Except String ℕ)) "503" ((2 : ℕ) : ℤ) 5 =
      ⟨Except.error (some "x 503 y"),
        (List.range 2).map (fun k => 5 * 2 ^ k), 2⟩ := by
  have hw : strContains "x 503 y" "503" = true := by decide
  exact ⟨retryWithBackoff_semantics_c4.1 ℕ _ "503" 5 42 "x 503 y" "x 503 y" rfl hw rfl hw rfl,
    retryWithBackoff_semantics_c4.2.1 ℕ _ "503" 3 5 "boom" (by norm_num) rfl (by decide),
    retryWithBackoff_semantics_c4.2.2 ℕ _ "503" 5 (fun _ => "x 503 y") 2 (by norm_num)
      (fun _ => rfl) (fun _ => hw)⟩

/-- C10: calling `retryWithBackoff` with a `retries` argument of 0 or
less never invokes the operation and throws the uninitialized `lastError`
(`undefined`, modelled as `Except.error none`) immediately, with no
sleeps. -/
theorem retry_zero_retries_c10 (T : Type) (fn : ℕ → Except String T) (marker : String)
    (d : ℕ) (ret : ℤ) (h : ret ≤ 0) :
    retryWithBackoff fn marker ret d = ⟨Except.error none, [], 0⟩ := by
  have h0 : ret.toNat = 0 := Int.toNat_of_nonpos h
  rw [retryWithBackoff, h0]
  simp [retryGo]

/-- Witness for C10 at `retries = -2`. -/
theorem retry_zero_retries_c10_witness :
    (-2 : ℤ) ≤ 0 ∧
    retryWithBackoff (fun _ => Except.ok (37 : ℕ)) "503" (-2) 5 = ⟨Except.error none, [], 0⟩ :=
  ⟨by norm_num, retry_zero_retries_c10 ℕ _ "503" 5 (-2) (by norm_num)⟩

/-- A disarmed first tier stays disarmed and cannot fire through one
cycle whose observed health is below the buffered re-arm point. -/
lemma step_first_disarmed (th : Thresholds) (acc : MonitoredAccount) (h : ℤ)
    (ha : acc.notifyAtFirstThreshold = false) (hh : h < th.firstBuffer) :
    (stepAccount th acc h).1.notifyAtFirstThreshold = false ∧
    Tier.firstTier ∉ (stepAccount th acc h).2 := by
  have hfire : fireDecision th acc h ≠ some Tier.firstTier := by
    unfold fireDecision
    split
    · simp
    · split
      · rename_i hc
        rw [ha] at hc
        simp at hc
      · simp
  unfold stepAccount
  split
  · exact ⟨ha, by simp⟩
  · refine ⟨?_, ?_⟩
    · simp only [if_neg (by omega : ¬ h ≥ th.firstBuffer), if_neg hfire, ha]
    · cases hf : fireDecision th acc h with
      | none => simp [hf]
      | some t =>
        rcases t with _ | _
        · exact absurd hf hfire
        · simp [hf]

/-- A disarmed second tier stays disarmed and cannot fire through one
cycle whose observed health is below its buffered re-arm point. -/
lemma step_second_disarmed (th : Thresholds) (acc : MonitoredAccount) (h : ℤ)
    (ha : acc.notifyAtSecondThreshold = false) (hh : h < th.secondBuffer) :
    (stepAccount th acc h).1.notifyAtSecondThreshold = false ∧
    Tier.secondTier ∉ (stepAccount th acc h).2 := by
  have hfire : fireDecision th acc h ≠ some Tier.secondTier := by
    unfold fireDecision
    split
    · rename_i hc
      rw [ha] at hc
      simp at hc
    · split
      · simp
      · simp
  unfold stepAccount
  split
  · exact ⟨ha, by simp⟩
  · refine ⟨?_, ?_⟩
    · simp only [if_neg (by omega : ¬ h ≥ th.secondBuffer), if_neg hfire, ha]
    · cases hf : fireDecision th acc h with
      | none => simp [hf]
      | some t =>
        rcases t with _ | _
        · simp [hf]
        · exact absurd hf hfire

/-- Iterated form of `step_first_disarmed` over any health sequence that
stays below the first buffered re-arm point. -/
lemma run_first_disarmed (th : Thresholds) :
    ∀ (hs : List ℤ) (acc : MonitoredAccount),
      acc.notifyAtFirstThreshold = false → (∀ x ∈ hs, x < th.firstBuffer) →
      (runHealths th acc hs).1.notifyAtFirstThreshold = false ∧
      Tier.firstTier ∉ (runHealths th acc hs).2 := by
  intro hs
  induction hs with
  | nil => exact fun acc ha _ => ⟨ha, by simp [runHealths]⟩
  | cons h rest ih =>
    intro acc ha hall
    have h1 := step_first_disarmed th acc h ha (hall h (by simp))
    have h2 := ih (stepAccount th acc h).1 h1.1 (fun x hx => hall x (by simp [hx]))
    refine ⟨h2.1, ?_⟩
    simp only [runHealths, List.mem_append]
    rintro (hc | hc)
    · exact h1.2 hc
    · exact h2.2 hc

/-- Iterated form of `step_second_disarmed` over any health sequence that
stays below the second buffered re-arm point. -/
lemma run_second_disarmed (th : Thresholds) :
    ∀ (hs : List ℤ) (acc : MonitoredAccount),
      acc.notifyAtSecondThreshold = false → (∀ x ∈ hs, x < th.secondBuffer) →
      (runHealths th acc hs).1.notifyAtSecondThreshold = false ∧
      Tier.secondTier ∉ (runHealths th acc hs).2 := by
  intro hs
  induction hs with
  | nil => exact fun acc ha _ => ⟨ha, by simp [runHealths]⟩
  | cons h rest ih =>
    intro acc ha hall
    have h1 := step_second_disarmed th acc h ha (hall h (by simp))
    have h2 := ih (stepAccount th acc h).1 h1.1 (fun x hx => hall x (by simp [hx]))
    refine ⟨h2.1, ?_⟩
    simp only [runHealths, List.mem_append]
    rintro (hc | hc)
    · exact h1.2 hc
    · exact h2.2 hc

/-- C9: a newly registered account's arm flags compare the current
normalized health against the buffered re-arm points (not the raw
thresholds); hence an account registered with health strictly between a
threshold and that threshold's buffer starts with the tier disarmed, and
over any subsequent health sequence staying below the buffered re-arm
point that tier never fires and stays disarmed. -/
theorem initial_arm_flags_buffered_c9 (th : Thresholds) (address : String) (chatId h : ℤ) :
    ((initialMonitoredAccount th address chatId h).notifyAtFirstThreshold
        = decide (h ≥ th.firstBuffer) ∧
      (initialMonitoredAccount th address chatId h).notifyAtSecondThreshold
        = decide (h ≥ th.secondBuffer)) ∧
    (th.first < h → h < th.firstBuffer →
      (initialMonitoredAccount th address chatId h).notifyAtFirstThreshold = false ∧
      ∀ hs : List ℤ, (∀ x ∈ hs, x < th.firstBuffer) →
        Tier.firstTier ∉ (runHealths th (initialMonitoredAccount th address chatId h) hs).2 ∧
        (runHealths th (initialMonitoredAccount th address chatId h)
          hs).1.notifyAtFirstThreshold = false) ∧
    (th.second < h → h < th.secondBuffer →
      (initialMonitoredAccount th address chatId h).notifyAtSecondThreshold = false ∧
      ∀ hs : List ℤ, (∀ x ∈ hs, x < th.secondBuffer) →
        Tier.secondTier ∉ (runHealths th (initialMonitoredAccount th address chatId h) hs).2 ∧
        (runHealths th (initialMonitoredAccount th address chatId h)
          hs).1.notifyAtSecondThreshold = false) := by
  refine ⟨⟨rfl, rfl⟩, ?_, ?_⟩
  · intro h1 h2
    have hflag : (initialMonitoredAccount th address chatId h).notifyAtFirstThreshold = false := by
      simp [initialMonitoredAccount]
      omega
    refine ⟨hflag, fun hs hall => ?_⟩
    have := run_first_disarmed th hs (initialMonitoredAccount th address chatId h) hflag hall
    exact ⟨this.2, this.1⟩
  · intro h1 h2
    have hflag : (initialMonitoredAccount th address chatId h).notifyAtSecondThreshold = false := by
      simp [initialMonitoredAccount]
      omega
    refine ⟨hflag, fun hs hall => ?_⟩
    have := run_second_disarmed th hs (initialMonitoredAccount th address chatId h) hflag hall
    exact ⟨this.2, this.1⟩

/-- Witness for C9: with the spec thresholds, an account registered at
health 27 (strictly between 25 and 30) starts with the first tier
disarmed, and over the sequence 20, 29, 15 (all below 30) the first tier
never fires. -/
theorem initial_arm_flags_buffered_c9_witness :
    ((25 : ℤ) < 27 ∧ (27 : ℤ) < 30 ∧ ∀ x ∈ ([20, 29, 15] : List ℤ), x < (30 : ℤ)) ∧
    (initialMonitoredAccount specThresholds "addr" 7 27).notifyAtFirstThreshold = false ∧
    Tier.firstTier ∉
      (runHealths specThresholds (initialMonitoredAccount specThresholds "addr" 7 27)
        [20, 29, 15]).2 :=
  ⟨⟨by norm_num, by norm_num, by decide⟩,
    ((initial_arm_flags_buffered_c9 specThresholds "addr" 7 27).2.1 (by decide)
      (by decide)).1,
    (((initial_arm_flags_buffered_c9 specThresholds "addr" 7 27).2.1 (by decide)
      (by decide)).2 [20, 29, 15] (by decide)).1⟩

/-- C3 counterexample: with the spec thresholds and buffer 10, an account
at stored health 40 whose new normalized health is 20 (raw 28) and whose
FirstTier delivery fails after retry exhaustion is NOT updated: the
per-account `catch` executes `continue`, so the record keeps health 40
and no registry or storage write happens, contradicting the claim that
the update occurs regardless of delivery failure. -/
theorem update_skipped_on_delivery_failure_cex_c3 :
    (processAccount specThresholds 10
        ⟨true, Except.ok 28, Except.error "HTTP network request failed", Except.ok ()⟩
        ⟨"addr", 7, 40, true, true⟩).updated = false ∧
    (processAccount specThresholds 10
        ⟨true, Except.ok 28, Except.error "HTTP network request failed", Except.ok ()⟩
        ⟨"addr", 7, 40, true, true⟩).record.lastHealth = 40 ∧
    getQuartzHealth 10 28 = 20 := by
  have hq : getQuartzHealth 10 28 = 20 := by
    unfold getQuartzHealth
    norm_num
  have hfir : fireDecision specThresholds ⟨"addr", 7, 40, true, true⟩ 20
      = some Tier.firstTier := by
    unfold fireDecision
    norm_num [specThresholds]
  refine ⟨?_, ?_, hq⟩ <;> simp [processAccount, hq, hfir]

/-- C3 as amended: when the newly computed normalized health differs from
the stored one, the cycle updates the in-memory record and issues the
storage write — with the new health and the recomputed arm flags —
whenever no notification fires or the notification delivery succeeds;
when a notification fires and its delivery fails after retry exhaustion,
the `continue` skips the update and the record keeps its previous
contents. -/
theorem registry_update_semantics_c3 (th : Thresholds) (b : ℚ) (input : CycleInput)
    (acc : MonitoredAccount) (raw : ℚ)
    (hf : input.fetched = true) (hh : input.health = Except.ok raw)
    (hne : getQuartzHealth b raw ≠ acc.lastHealth) :
    ((input.delivery = Except.ok () ∨ fireDecision th acc (getQuartzHealth b raw) = none) →
      (processAccount th b input acc).updated = true ∧
      (processAccount th b input acc).record = (stepAccount th acc (getQuartzHealth b raw)).1 ∧
      (processAccount th b input acc).record.lastHealth = getQuartzHealth b raw) ∧
    (∀ e t, input.delivery = Except.error e →
      fireDecision th acc (getQuartzHealth b raw) = some t →
      (processAccount th b input acc).updated = false ∧
      (processAccount th b input acc).record = acc) := by
  have hrec : (stepAccount th acc (getQuartzHealth b raw)).1.lastHealth
      = getQuartzHealth b raw := by
    unfold stepAccount
    rw [if_neg hne]
  constructor
  · rintro (hdel | hdel)
    · rcases hfir : fireDecision th acc (getQuartzHealth b raw) with _ | t <;>
        simp [processAccount, hf, hh, hne, hdel, hfir, hrec]
    · rcases hdelv : input.delivery with e | u <;>
        simp [processAccount, hf, hh, hne, hdel, hdelv, hrec]
  · intro e t hdel hfir
    simp [processAccount, hf, hh, hne, hdel, hfir]

/-- Witness for the amended C3: same account and drop as the
counterexample but with delivery succeeding — the update executes and
stores the new health. -/
theorem registry_update_semantics_c3_witness :
    (processAccount specThresholds 10 ⟨true, Except.ok 28, Except.ok (), Except.ok ()⟩
      ⟨"addr", 7, 40, true, true⟩).updated = true ∧
    (processAccount specThresholds 10 ⟨true, Except.ok 28, Except.ok (), Except.ok ()⟩
      ⟨"addr", 7, 40, true, true⟩).record.lastHealth = getQuartzHealth 10 28 := by
  have hq : getQuartzHealth 10 28 = 20 := by
    unfold getQuartzHealth
    norm_num
  have h := registry_update_semantics_c3 specThresholds 10
    ⟨true, Except.ok 28, Except.ok (), Except.ok ()⟩ ⟨"addr", 7, 40, true, true⟩ 28
    rfl rfl (by rw [hq]; decide)
  exact ⟨(h.1 (Or.inl rfl)).1, (h.1 (Or.inl rfl)).2.2⟩

/-- C6 counterexample: a decoded auto-repay instruction whose caller
equals its owner, with the owner NOT in the registry, produces no log
entry at all — in particular no manual-repay log entry — because the
manual-repay branch of bot.ts lines 310-313 is only reached when the
owner is monitored.  The claim's unconditional "a manual-repay log entry
is produced" is therefore false. -/
theorem manual_repay_log_unmonitored_cex_c6 :
    handleAutoRepay (fun _ => none) "A" "A" = ([], []) ∧
    RepayLog.manualRepay "A" ∉ (handleAutoRepay (fun _ => none) "A" "A").2 := by
  constructor <;> decide

/-- C6 as amended: caller equal to owner never produces a notification;
an unmonitored owner never produces a notification; a monitored owner
with caller equal to owner produces exactly the manual-repay log entry
and no notification; a monitored owner with a different caller produces
exactly one notification to that owner's chat; an unmonitored owner with
caller equal to owner produces no log entry at all. -/
theorem auto_repay_correlation_c6 (registry : String → Option MonitoredAccount)
    (caller owner : String) :
    (caller = owner → (handleAutoRepay registry caller owner).1 = []) ∧
    (registry owner = none → (handleAutoRepay registry caller owner).1 = []) ∧
    (∀ acc, registry owner = some acc → caller = owner →
      handleAutoRepay registry caller owner = ([], [RepayLog.manualRepay owner])) ∧
    (∀ acc, registry owner = some acc → caller ≠ owner →
      handleAutoRepay registry caller owner
        = ([acc.chatId], [RepayLog.autoRepayNotified owner])) ∧
    (registry owner = none → caller = owner →
      (handleAutoRepay registry caller owner).2 = []) := by
  refine ⟨?_, ?_, ?_, ?_, ?_⟩
  · intro hco
    cases hreg : registry owner <;> simp [handleAutoRepay, hreg, hco]
  · intro hreg
    by_cases hco : caller = owner <;> simp [handleAutoRepay, hreg, hco]
  · intro acc hreg hco
    simp [handleAutoRepay, hreg, hco]
  · intro acc hreg hco
    simp [handleAutoRepay, hreg, hco]
  · intro hreg hco
    simp [handleAutoRepay, hreg, hco]

/-- Witness for the amended C6 over a one-entry registry holding owner
"B": a foreign caller notifies chat 9 once; the owner acting alone is
logged as a manual repay with no notification. -/
theorem auto_repay_correlation_c6_witness :
    handleAutoRepay (fun a => if a = "B" then some ⟨"B", 9, 50, true, true⟩ else none) "C" "B"
      = ([9], [RepayLog.autoRepayNotified "B"]) ∧
    handleAutoRepay (fun a => if a = "B" then some ⟨"B", 9, 50, true, true⟩ else none) "B" "B"
      = ([], [RepayLog.manualRepay "B"]) :=
  ⟨(auto_repay_correlation_c6
        (fun a => if a = "B" then some ⟨"B", 9, 50, true, true⟩ else none) "C" "B").2.2.2.1
      ⟨"B", 9, 50, true, true⟩ (by decide) (by decide),
    (auto_repay_correlation_c6
        (fun a => if a = "B" then some ⟨"B", 9, 50, true, true⟩ else none) "B" "B").2.2.1
      ⟨"B", 9, 50, true, true⟩ (by decide) rfl⟩

/-- C7: the failing input is a cycle over accounts A then B where A's
`supabase.updateAccount` call rejects (for example because the row was
concurrently removed).  The call at bot.ts line 266 is not awaited, so
the rejection escapes the `try`/`catch` of lines 258-269 as an unhandled
promise rejection (`detached` here) instead of being caught and logged —
the `logged` list stays empty, contradicting the claim (and the intent
of the dead `catch` block) that any persisting exception is caught and
logged.  B is still evaluated and persisted in the same cycle. -/
theorem persist_error_escapes_handler_c7 :
    runCycle specThresholds 10
        [(⟨true, Except.ok 28, Except.ok (),
            Except.error "Account addrA does not exist in Supabase"⟩,
          ⟨"addrA", 7, 40, false, false⟩),
         (⟨true, Except.ok 50, Except.ok (), Except.ok ()⟩, ⟨"addrB", 8, 10, true, true⟩)]
      = [⟨[], true, ⟨"addrA", 7, 20, false, true⟩, [],
          ["Account addrA does not exist in Supabase"]⟩,
         ⟨[], true, ⟨"addrB", 8, 44, true, true⟩, [], []⟩] := by
  have hq1 : getQuartzHealth 10 28 = 20 := by
    unfold getQuartzHealth
    norm_num
  have hq2 : getQuartzHealth 10 50 = 44 := by
    unfold getQuartzHealth
    norm_num
  simp [runCycle, processAccount, hq1, hq2, stepAccount, fireDecision, specThresholds]

/-- C8 counterexample: a cycle aborted because the batch fetch fails even
after retry exhaustion does NOT await the `LOOP_DELAY` sleep: the `catch`
at bot.ts lines 196-199 executes `continue`, skipping line 272, so the
next cycle starts immediately — contradicting the claim that the poller
waits the fixed inter-cycle delay after every cycle. -/
theorem aborted_cycle_skips_delay_cex_c8 :
    (pollCycle specThresholds 10
      (Except.error "503 RPC node unavailable")).sleptLoopDelay = false := rfl

/-- C8 as amended: the `LOOP_DELAY` sleep is awaited after every cycle
whose batch fetch succeeded (regardless of per-account outcomes), and is
skipped exactly when the cycle aborts on batch-fetch failure; cycles
still never overlap, since each iteration runs to completion before the
next starts. -/
theorem loop_delay_after_cycle_c8 (th : Thresholds) (b : ℚ)
    (entries : List (CycleInput × MonitoredAccount)) (e : String) :
    (pollCycle th b (Except.ok entries)).sleptLoopDelay = true ∧
    (pollCycle th b (Except.error e)).sleptLoopDelay = false :=
  ⟨rfl, rfl⟩
